import Mathlib

/-
Verification development for the go-rpc repository (a lightweight RPC
framework with server dispatch, a multiplexing client, a heartbeat-driven
registry and a load-balancing cluster client).

Shallow embedding conventions:
  * Go `time.Duration` and `time.Time` values become `Nat` (an abstract tick
    count); `t.Add(d).After(u)` becomes `u < t + d`.
  * Go maps walked by `range` become association lists; the server addresses
    used as map keys are `String`.
  * Nondeterminism (the scheduler choosing a `select` arm, `rand` values,
    success or failure of a network write) is passed in as explicit oracle
    arguments, so every definition is a pure computable function of the
    state and the oracle.
  * `chan` completion signals are modelled by returning the list of values
    posted to the channel.
-/

namespace GoRpc

/- ===================== codec (codec package) ===================== -/

/-- Header of every framed request and response: codec.Header in the source. -/
structure Header where
  serviceMethod : String
  seq : Nat
  error : String
deriving DecidableEq, Repr

/-- Codec type tag registered in NewCodecFuncMap: codec.GobType. -/
def GobType : String := "application/gob"

/-- Codec type tag reserved but never registered: codec.JsonType. -/
def JsonType : String := "application/json"

/-- The process wide factory map NewCodecFuncMap holds exactly one entry,
for GobType; the commented-out JsonType registration in the source never
runs. Modelled as the predicate telling whether a tag has a factory. -/
def NewCodecFuncMap (t : String) : Bool := t = GobType

/- ============ discovery (xclient/go_discovery.go) ============ -/

/-- Load balancing mode: xclient.SelectMode. -/
inductive SelectMode
  | randomSelect
  | roundRobinSelect
deriving DecidableEq, Repr

/-- xclient.MultiServersDiscovery: the server list plus the round robin
cursor. The rand.Rand source is externalised into the oracle argument of
get, so it is not part of the state. -/
structure MultiServersDiscovery where
  servers : List String
  index : Nat
deriving DecidableEq, Repr

/-- Error text returned by Get on an empty server list. -/
def errNoServers : String := "rpc discovery: 没有发现可以访问的实例"

/-- Error text returned by Get on an unknown mode (unreachable for the two
constructors modelled here, kept for fidelity of the switch default). -/
def errBadMode : String := "rpc discovery: 不支持给定的负载均衡模式"

/-- MultiServersDiscovery.Get. `randVal` is the oracle for `m.r.Intn n`
(`randVal % n` is the drawn value). The round robin arm returns
`servers[index % n]` and stores `(index + 1) % n` back into the cursor. -/
def MultiServersDiscovery.get (m : MultiServersDiscovery) (randVal : Nat)
    (mode : SelectMode) : Except String String × MultiServersDiscovery :=
  let n := m.servers.length
  if n = 0 then
    (Except.error errNoServers, m)
  else
    match mode with
    | SelectMode.randomSelect =>
        (Except.ok (m.servers.getD (randVal % n) ""), m)
    | SelectMode.roundRobinSelect =>
        (Except.ok (m.servers.getD (m.index % n) ""),
         { m with index := (m.index + 1) % n })

/-- MultiServersDiscovery.GetAll returns a copy of the server list. -/
def MultiServersDiscovery.getAll (m : MultiServersDiscovery) :
    Except String (List String) :=
  Except.ok m.servers

/-- MultiServersDiscovery.Update replaces the server list. -/
def MultiServersDiscovery.update (m : MultiServersDiscovery)
    (servers : List String) : MultiServersDiscovery :=
  { m with servers := servers }

/-- NewMultiServersDiscovery seeds the cursor with
`r.Intn (math.MaxInt32 - 1)`; `seed` is the oracle for that draw. -/
def NewMultiServersDiscovery (servers : List String) (seed : Nat) :
    MultiServersDiscovery :=
  { servers := servers, index := seed % (2 ^ 31 - 2) }

/-- Iterated round robin Get: the state after `k` successive calls (the
random oracle is irrelevant to the round robin arm). -/
def MultiServersDiscovery.getSeq (m : MultiServersDiscovery) :
    Nat → MultiServersDiscovery
  | 0 => m
  | k + 1 => ((m.getSeq k).get 0 SelectMode.roundRobinSelect).2

/- ===================== registry (registry/registry.go) ===================== -/

/-- registry.ServerItem: one endpoint with its last heartbeat instant
(field `start`, refreshed by putServer). -/
structure ServerItem where
  addr : String
  start : Nat
deriving DecidableEq, Repr

/-- registry.GoRegistry: the TTL and the endpoint table (a Go map walked
with range, modelled as an association list keyed by addr). -/
structure GoRegistry where
  timeout : Nat
  servers : List ServerItem
deriving DecidableEq, Repr

/-- The liveness test inside GoRegistry.aliveServers:
`r.timeout == 0 || s.start.Add(r.timeout).After(now)`, that is
`timeout = 0 ∨ now < start + timeout` (strict). -/
def aliveCheck (timeout now : Nat) (s : ServerItem) : Bool :=
  timeout = 0 || now < s.start + timeout

/-- Byte order comparison on char lists, the order used by Go
`sort.Strings` (lexicographic on the string bytes; our addresses are
ASCII so code point order coincides with byte order). -/
def goCharListLe : List Char → List Char → Bool
  | [], _ => true
  | _ :: _, [] => false
  | a :: as, b :: bs =>
      if a.toNat < b.toNat then true
      else if b.toNat < a.toNat then false
      else goCharListLe as bs

/-- String comparison for sort.Strings. -/
def goStringLe (a b : String) : Bool := goCharListLe a.data b.data

/-- GoRegistry.aliveServers walks the table: entries passing aliveCheck
are collected, the rest are deleted from the table; the collected
addresses are returned sorted by sort.Strings. Result: the sorted alive
list and the registry after the evictions. -/
def GoRegistry.aliveServers (r : GoRegistry) (now : Nat) :
    List String × GoRegistry :=
  let kept := r.servers.filter (aliveCheck r.timeout now)
  ((kept.map ServerItem.addr).mergeSort goStringLe,
   { r with servers := kept })

/-- registry.GoRegistry.putServer: insert a fresh item or refresh the
heartbeat instant of an existing one. -/
def GoRegistry.putServer (r : GoRegistry) (addr : String) (now : Nat) :
    GoRegistry :=
  if (r.servers.find? (fun s => s.addr = addr)).isSome then
    { r with servers :=
        r.servers.map (fun s => if s.addr = addr then { s with start := now } else s) }
  else
    { r with servers := r.servers ++ [⟨addr, now⟩] }

/-- registry.defaultTimeout (5 minutes), in seconds. -/
def registryDefaultTimeout : Nat := 300

/-- The interval actually used by registry.Heartbeat: a zero argument is
replaced by time.Second (1, in seconds). -/
def heartbeatInterval (duration : Nat) : Nat :=
  if duration = 0 then 1 else duration

/-- The posting loop of registry.Heartbeat. The oracle list gives the
outcome sendHeartbeat would have at the immediate post and at each later
tick (true means the post returned a nil error). The source runs
`err = sendHeartbeat(...)` once and then `for err != nil { <-t.C;
err = sendHeartbeat(...) }`, so posts continue exactly while the previous
attempt errored and stop right after the first success. The returned list
is the outcome of every post actually made. -/
def heartbeatAttempts : List Bool → List Bool
  | [] => []
  | ok :: rest => ok :: (if ok then [] else heartbeatAttempts rest)

/- ===================== service (server/service.go) ===================== -/

/-- Kind of a Go type, the part of reflect.Kind the service layer looks
at (pointer and the container kinds special cased by newReplyv). -/
inductive GoTypeKind
  | ptrKind
  | mapKind
  | sliceKind
  | otherKind
deriving DecidableEq, Repr

/-- A Go type as seen by the registration filter: its declared name, its
package path (empty for builtin and unnamed types) and its kind. -/
structure GoType where
  name : String
  pkgPath : String
  kind : GoTypeKind
deriving DecidableEq, Repr

/-- ast.IsExported on a name: the first character is upper case (our
names are ASCII, where Char.isUpper agrees with unicode.IsUpper). -/
def isExportedName (s : String) : Bool :=
  match s.data with
  | [] => false
  | c :: _ => c.isUpper

/-- service.isExportedOrBuiltinType: the type name is exported or the
package path is empty. -/
def isExportedOrBuiltinType (t : GoType) : Bool :=
  isExportedName t.name || t.pkgPath = ""

/-- The reflected signature of one method: number of inputs counting the
receiver, number of outputs, whether Out 0 is the error interface type,
and the two declared input types. -/
structure GoMethod where
  name : String
  numIn : Nat
  numOut : Nat
  outIsError : Bool
  argType : GoType
  replyType : GoType
deriving DecidableEq, Repr

/-- The method set of a receiver type. -/
structure GoTypeMethods where
  methods : List GoMethod
deriving DecidableEq, Repr

/-- Go reflect on a concrete type: typ.NumMethod and typ.Method
enumerate only the exported methods, so the loop inside registerMethods
ranges over this list. -/
def reflectExportedMethods (t : GoTypeMethods) : List GoMethod :=
  t.methods.filter (fun m => isExportedName m.name)

/-- The retained-method test inside service.registerMethods: three
inputs counting the receiver, exactly one output, that output being the
error type, and both declared inputs exported or builtin. No condition
on the kind of the reply type is checked. -/
def methodEligible (m : GoMethod) : Bool :=
  m.numIn = 3 && m.numOut = 1 && m.outIsError
    && isExportedOrBuiltinType m.argType && isExportedOrBuiltinType m.replyType

/-- service.registerMethods: the methods stored in the service method
map are the enumerated (exported) methods passing methodEligible. -/
def registerMethods (t : GoTypeMethods) : List GoMethod :=
  (reflectExportedMethods t).filter methodEligible

/-- A method descriptor at runtime: methodType with its atomic numCalls
counter, together with the behaviour of the underlying method as a pure
function from argument and current reply to new reply and optional
error (a nil error is none). -/
structure MethodType (α β : Type) where
  func : α → β → β × Option String
  numCalls : Nat

/-- service.call: increment numCalls by one, invoke the method through
reflection, and return its error. Result: the error, the written reply
and the updated descriptor. -/
def serviceCall {α β : Type} (m : MethodType α β) (argv : α) (replyv : β) :
    Option String × β × MethodType α β :=
  let m2 : MethodType α β := { m with numCalls := m.numCalls + 1 }
  let r := m.func argv replyv
  (r.2, r.1, m2)

/-- The descriptor state after a finite sequence of invocations of
service.call, one per (argument, reply container) pair. -/
def runCalls {α β : Type} (m : MethodType α β) (inputs : List (α × β)) :
    MethodType α β :=
  inputs.foldl (fun acc i => (serviceCall acc i.1 i.2).2.2) m

/-- Number of invocations in the sequence whose method returned a nil
error (the method behaviour is pure, so success depends only on the
input pair). -/
def successfulCalls {α β : Type} (m : MethodType α β)
    (inputs : List (α × β)) : Nat :=
  (inputs.filter (fun i => (m.func i.1 i.2).2 = none)).length

/- ===================== server (server.go, part_006) ===================== -/

/-- option.MagicNumber. -/
def MagicNumber : Nat := 0x3bef5c

/-- option.Option as read during the handshake (the timeout fields do
not matter to ServeConn itself). -/
structure GoOption where
  magicNumber : Nat
  codecType : String
deriving DecidableEq, Repr

/-- Outcome of Server.ServeConn on one connection. The three handshake
failure paths all call log.Fatalln or log.Fatalf, which logs and then
exits the whole process (os.Exit(1)): deferred functions do not run and
every other connection of the process dies with it. That outcome is
processExit. Only a connection passing all three checks reaches
serveCodec. -/
inductive ServeConnOutcome
  | processExit (logMsg : String)
  | served (codecType : String)
deriving DecidableEq, Repr

/-- Server.ServeConn up to the hand off to serveCodec. The argument is
the result of decoding one JSON Option from the connection. -/
def serveConn (optData : Except String GoOption) : ServeConnOutcome :=
  match optData with
  | Except.error e =>
      ServeConnOutcome.processExit ("rpc server: 反序列化Option出错 err: " ++ e)
  | Except.ok opt =>
      if opt.magicNumber ≠ MagicNumber then
        ServeConnOutcome.processExit "rpc server: 非法魔数"
      else if !NewCodecFuncMap opt.codecType then
        ServeConnOutcome.processExit "rpc server: 非法CodecType"
      else
        ServeConnOutcome.served opt.codecType

/-- Body of a response frame: either the invalidRequest sentinel
(struct{}{}) or the reply value (opaque, modelled as a string). -/
inductive RespBody
  | invalidRequest
  | replyValue (v : String)
deriving DecidableEq, Repr

/-- One response frame written through sendResponse. -/
structure Response where
  header : Header
  body : RespBody
deriving DecidableEq, Repr

/-- Which arm of the select inside handleRequest fires first when the
timeout is nonzero: the time.After timer or the called channel. -/
inductive RaceWinner
  | timerFirst
  | calledFirst
deriving DecidableEq, Repr

/-- The header error set on timeout:
fmt.Sprintf("rpc server: 处理请求超时, 超时时间为%s", timeout). -/
def handleTimeoutMsg (t : Nat) : String :=
  "rpc server: 处理请求超时, 超时时间为" ++ toString t

/-- The frame the worker goroutine sends for a completed invocation: on
a method error the header carries the error text and the body is the
invalidRequest sentinel, otherwise the header is unchanged and the body
is the reply value. -/
def callResponse (h : Header) (callErr : Option String) (replyVal : String) :
    Response :=
  match callErr with
  | some e => ⟨{ h with error := e }, RespBody.invalidRequest⟩
  | none => ⟨h, RespBody.replyValue replyVal⟩

/-- Everything observable of one Server.handleRequest execution. -/
structure HandleResult where
  written : List Response
  callCompleted : Bool
  bgBlockedForever : Bool
deriving DecidableEq, Repr

/-- Server.handleRequest. The invocation behaviour is summarised by
`callErr` (the error service.call returns) and `replyVal` (the reply it
writes); `winner` is the scheduler oracle for the select, consulted only
when the timeout is nonzero. The called and sent channels are
unbuffered: when the timer arm wins, handleRequest returns after writing
the timeout response and nothing ever receives on called again, so the
inner goroutine, having run service.call to completion, blocks forever
at `called <- struct{}{}` and never reaches its sendResponse: its result
is never written to the connection (bgBlockedForever records the leaked
goroutine). -/
def handleRequest (h : Header) (callErr : Option String) (replyVal : String)
    (timeout : Nat) (winner : RaceWinner) : HandleResult :=
  if timeout = 0 then
    ⟨[callResponse h callErr replyVal], true, false⟩
  else
    match winner with
    | RaceWinner.calledFirst =>
        ⟨[callResponse h callErr replyVal], true, false⟩
    | RaceWinner.timerFirst =>
        ⟨[⟨{ h with error := handleTimeoutMsg timeout }, RespBody.invalidRequest⟩],
         true, true⟩

/- ===================== client (client.go, part_007) ===================== -/

/-- The done channel a Call ends up with inside Client.Go. -/
inductive DoneChannel
  | fresh (capacity : Nat)
  | given (capacity : Nat)
deriving DecidableEq, Repr

/-- Capacity of the done channel. -/
def DoneChannel.capacity : DoneChannel → Nat
  | DoneChannel.fresh k => k
  | DoneChannel.given k => k

/-- The channel normalisation at the top of Client.Go: a nil done becomes
a fresh channel of capacity 1; a non nil channel of capacity 0 hits
log.Panic; any other channel is used as given. The argument is the
capacity of the caller supplied channel, or none for nil. -/
def goDoneChannel : Option Nat → Except String DoneChannel
  | none => Except.ok (DoneChannel.fresh 1)
  | some 0 => Except.error "rpc client: done channel 为无缓冲通道"
  | some (k + 1) => Except.ok (DoneChannel.given (k + 1))

/-- client.Call, one outstanding invocation. Args is opaque (a string);
the Reply container and the Done channel object are not part of the
state: completion signals are modelled as the lists of Call values the
operations post. -/
structure Call where
  seq : Nat
  serviceMethod : String
  args : String
  error : Option String
deriving DecidableEq, Repr

/-- client.ErrShutdown. -/
def ErrShutdown : String := "连接已经关闭"

/-- client.Client: the seq counter, the pending table (a map keyed by
Call.seq, modelled as a list with distinct seqs) and the two close
flags. -/
structure Client where
  seq : Nat
  pending : List Call
  closing : Bool
  shutdown : Bool
deriving DecidableEq, Repr

/-- Client.IsAvailable. -/
def Client.isAvailable (c : Client) : Bool := !c.shutdown && !c.closing

/-- Client.Close: already closing fails with ErrShutdown, otherwise the
closing flag is set (the codec close is outside the state). -/
def Client.close (c : Client) : Except String Unit × Client :=
  if c.closing then (Except.error ErrShutdown, c)
  else (Except.ok (), { c with closing := true })

/-- Client.registerCall: on a closing or shutdown client fail with
ErrShutdown and leave the state untouched; otherwise stamp the call
with the current seq, insert it into pending and advance the counter. -/
def Client.registerCall (c : Client) (call : Call) : Except String Nat × Client :=
  if c.closing || c.shutdown then (Except.error ErrShutdown, c)
  else
    (Except.ok c.seq,
     { c with pending := { call with seq := c.seq } :: c.pending,
              seq := c.seq + 1 })

/-- Client.removeCall: look the seq up and delete it from pending. -/
def Client.removeCall (c : Client) (seq : Nat) : Option Call × Client :=
  (c.pending.find? (fun cl => cl.seq = seq),
   { c with pending := c.pending.filter (fun cl => cl.seq ≠ seq) })

/-- Client.terminateCalls: set shutdown, write err into every pending
call and post each of them once on its Done channel. The second
component is the list of posted completion signals; the entries stay in
the table (the source does not delete them). -/
def Client.terminateCalls (c : Client) (err : String) : Client × List Call :=
  let signaled := c.pending.map (fun cl => { cl with error := some err })
  ({ c with shutdown := true, pending := signaled }, signaled)

/-- Observable outcome of Client.send: the client state after it, the
headers handed to cc.Write, and the completion signals posted. -/
structure SendOutcome where
  client : Client
  wire : List Header
  completions : List Call
deriving DecidableEq, Repr

/-- Client.send. `writeResult` is the oracle for the cc.Write error
(none means the write succeeded). A failed registration completes the
call with the error at once, handing nothing to cc.Write; a failed
write removes the just registered call and completes it with the write
error. -/
def Client.send (c : Client) (call : Call) (writeResult : Option String) :
    SendOutcome :=
  match c.registerCall call with
  | (Except.error e, c2) => ⟨c2, [], [{ call with error := some e }]⟩
  | (Except.ok seq, c2) =>
      let h : Header := ⟨call.serviceMethod, seq, ""⟩
      match writeResult with
      | none => ⟨c2, [h], []⟩
      | some e =>
          let r := c2.removeCall seq
          match r.1 with
          | some cl => ⟨r.2, [h], [{ cl with error := some e }]⟩
          | none => ⟨r.2, [h], []⟩

/-- Outcome of Client.Go: either the log.Panic on an unbuffered done
channel, or the call was built and handed to send. -/
inductive GoOutcome
  | panicked (msg : String)
  | started (done : DoneChannel) (res : SendOutcome)
deriving DecidableEq, Repr

/-- Client.Go: normalise the done channel, build the Call and send it.
The done argument is the capacity of the caller supplied channel, or
none for nil. -/
def Client.go (c : Client) (serviceMethod args : String)
    (done : Option Nat) (writeResult : Option String) : GoOutcome :=
  match goDoneChannel done with
  | Except.error msg => GoOutcome.panicked msg
  | Except.ok ch =>
      GoOutcome.started ch
        (c.send { seq := 0, serviceMethod := serviceMethod,
                  args := args, error := none } writeResult)

/-- One client state transition, for the closed-forever invariant: the
operations of the client API that touch the state. receive loop effects
are covered by remove (a routed response) and terminate (loop exit). -/
inductive ClientOp
  | close
  | register (call : Call)
  | remove (seq : Nat)
  | terminate (err : String)
  | send (call : Call) (writeResult : Option String)
  | go (serviceMethod args : String) (done : Option Nat) (writeResult : Option String)

/-- Apply one operation to the client state. -/
def Client.step (c : Client) : ClientOp → Client
  | ClientOp.close => c.close.2
  | ClientOp.register call => (c.registerCall call).2
  | ClientOp.remove seq => (c.removeCall seq).2
  | ClientOp.terminate err => (c.terminateCalls err).1
  | ClientOp.send call w => (c.send call w).client
  | ClientOp.go sm a d w =>
      match c.go sm a d w with
      | GoOutcome.panicked _ => c
      | GoOutcome.started _ r => r.client

/-- Apply a sequence of operations. -/
def Client.steps (c : Client) (ops : List ClientOp) : Client :=
  ops.foldl Client.step c

/- ===================== auxiliary concrete instances ===================== -/

/-- The builtin int type as the registration filter sees it. -/
def intGoType : GoType := ⟨"int", "", GoTypeKind.otherKind⟩

/-- A well formed method except that its reply input is a plain int, not
a pointer: func (t T) Sum(a int, r int) error. -/
def sumValueReply : GoMethod := ⟨"Sum", 3, 1, true, intGoType, intGoType⟩

/-- A method whose invocation always returns a non nil error, with the
counter at zero. -/
def failingMethod : MethodType Nat Nat := ⟨fun _ r => (r, some "boom"), 0⟩

/- ===================== theorems ===================== -/

/-- C4 (code evidence): the reposting loop of registry.Heartbeat runs
only while the previous sendHeartbeat errored, so the first successful
post is also the last post: with the very first post succeeding and
three ticks worth of outcomes available, exactly one post is ever made.
Failed posts indeed keep the ticker going (second conjunct), and the
zero interval defaults to 1 second, strictly below the registry TTL of
300 seconds, but the claimed repost-on-every-tick behaviour fails. -/
theorem heartbeat_stops_after_first_success :
    heartbeatAttempts [true, true, true, true] = [true]
    ∧ heartbeatAttempts [false, false, true, true] = [false, false, true]
    ∧ heartbeatInterval 0 = 1
    ∧ heartbeatInterval 0 < registryDefaultTimeout := by
  refine ⟨rfl, rfl, rfl, ?_⟩
  decide

/-- C5 (counterexample): a method whose reply input is the builtin int,
which is not a pointer kind, is nevertheless retained by
service.registerMethods, refuting the claimed eligibility equivalence:
the registration filter never checks the kind of the reply type. -/
theorem registerMethods_counterexample :
    sumValueReply ∈ registerMethods ⟨[sumValueReply]⟩
    ∧ sumValueReply.replyType.kind ≠ GoTypeKind.ptrKind := by
  decide

/-- C5 (amended): a method is retained in the service method map iff it
is in the receiver method set, its name is exported, it has exactly
three inputs counting the receiver and one output, that output is the
error type, and the argument and reply input types are each builtin or
exported; no pointer condition on the reply input is enforced. -/
theorem registerMethods_spec (t : GoTypeMethods) (m : GoMethod) :
    m ∈ registerMethods t ↔
      m ∈ t.methods ∧ isExportedName m.name = true ∧ m.numIn = 3
        ∧ m.numOut = 1 ∧ m.outIsError = true
        ∧ isExportedOrBuiltinType m.argType = true
        ∧ isExportedOrBuiltinType m.replyType = true := by
  simp [registerMethods, reflectExportedMethods, List.mem_filter,
    methodEligible, Bool.and_eq_true, decide_eq_true_eq, and_assoc]
  tauto

/-- C6 (counterexample): one invocation of a method that returns an
error drives numCalls to 1 while the number of successful invocations
is 0, refuting the claim that the counter equals the number of
successful invocations: service.call increments the counter before the
reflective call, unconditionally. -/
theorem numCalls_counterexample :
    (runCalls failingMethod [(1, 0)]).numCalls = 1
    ∧ successfulCalls failingMethod [(1, 0)] = 0 := by
  exact ⟨rfl, rfl⟩

/-- C9 (code evidence): every handshake failure of Server.ServeConn (a
magic number different from 0x3bef5c, a codec tag with no registered
factory, or an Option that fails to decode) ends in processExit: the
log.Fatal call terminates the whole process rather than closing only
the offending connection, so no request from the connection is ever
served, but the server cannot keep serving other connections either.
A connection is handed to serveCodec iff both checks pass. -/
theorem serveConn_handshake_exits :
    serveConn (Except.ok ⟨0x3bef5b, GobType⟩)
        = ServeConnOutcome.processExit "rpc server: 非法魔数"
    ∧ serveConn (Except.ok ⟨MagicNumber, JsonType⟩)
        = ServeConnOutcome.processExit "rpc server: 非法CodecType"
    ∧ (∀ e, serveConn (Except.error e)
        = ServeConnOutcome.processExit ("rpc server: 反序列化Option出错 err: " ++ e))
    ∧ (∀ opt : GoOption,
        (∃ ct, serveConn (Except.ok opt) = ServeConnOutcome.served ct)
          ↔ opt.magicNumber = MagicNumber ∧ NewCodecFuncMap opt.codecType = true) := by
  refine ⟨by decide, by decide, fun e => rfl, fun opt => ?_⟩
  constructor
  · rintro ⟨ct, hct⟩
    by_cases hm : opt.magicNumber = MagicNumber
    · by_cases hc : NewCodecFuncMap opt.codecType = true
      · exact ⟨hm, hc⟩
      · simp [serveConn, hm, hc] at hct
    · simp [serveConn, hm] at hct
  · rintro ⟨hm, hc⟩
    exact ⟨opt.codecType, by simp [serveConn, hm, hc]⟩

/-- C10: Client.Go with a nil done channel substitutes a fresh buffered
channel of capacity 1 and proceeds to send, so the nil case never
panics; the log.Panic branch is reached exactly for a non nil channel
of capacity 0; and every non panicking path leaves the call with a done
channel of capacity at least 1, so the single completion signal can be
posted without blocking. -/
theorem go_nil_done_safe (c : Client) (sm args : String) (w : Option String) :
    (∃ r, c.go sm args none w = GoOutcome.started (DoneChannel.fresh 1) r)
    ∧ (∀ d, (∃ msg, c.go sm args d w = GoOutcome.panicked msg) ↔ d = some 0)
    ∧ (∀ d ch r, c.go sm args d w = GoOutcome.started ch r → 1 ≤ ch.capacity) := by
  refine ⟨⟨_, rfl⟩, fun d => ?_, fun d ch r h => ?_⟩
  · constructor
    · rintro ⟨msg, hmsg⟩
      match d with
      | none => simp [Client.go, goDoneChannel] at hmsg
      | some 0 => rfl
      | some (k + 1) => simp [Client.go, goDoneChannel] at hmsg
    · rintro rfl
      exact ⟨_, rfl⟩
  · match d with
    | none =>
        simp [Client.go, goDoneChannel] at h
        rw [← h.1]
        exact Nat.le_refl 1
    | some 0 => simp [Client.go, goDoneChannel] at h
    | some (k + 1) =>
        simp [Client.go, goDoneChannel] at h
        rw [← h.1]
        exact Nat.succ_le_succ (Nat.zero_le k)

/- ========== order lemmas for sort.Strings ========== -/

/-- goCharListLe is total. -/
theorem goCharListLe_total :
    ∀ a b, goCharListLe a b = true ∨ goCharListLe b a = true := by
  intro a
  induction a with
  | nil => intro b; left; rfl
  | cons x xs ih =>
      intro b
      match b with
      | [] => right; rfl
      | y :: ys =>
          rcases Nat.lt_trichotomy x.toNat y.toNat with h | h | h
          · left; simp [goCharListLe, h]
          · rcases ih ys with h2 | h2
            · left; simp [goCharListLe, h, h2]
            · right; simp [goCharListLe, h, h2]
          · right; simp [goCharListLe, h]

/-- Reduction of goCharListLe on cons cells with equal heads. -/
theorem goCharListLe_cons_eq {x y : Char} (h : x.toNat = y.toNat)
    (xs ys : List Char) :
    goCharListLe (x :: xs) (y :: ys) = goCharListLe xs ys := by
  simp [goCharListLe, h]

/-- goCharListLe is transitive. -/
theorem goCharListLe_trans :
    ∀ a b c, goCharListLe a b = true → goCharListLe b c = true →
      goCharListLe a c = true := by
  intro a
  induction a with
  | nil => intro b c _ _; rfl
  | cons x xs ih =>
      intro b c hab hbc
      match b, c with
      | [], _ => simp [goCharListLe] at hab
      | _ :: _, [] => simp [goCharListLe] at hbc
      | y :: ys, z :: zs =>
          rcases Nat.lt_trichotomy x.toNat y.toNat with h1 | h1 | h1
          · rcases Nat.lt_trichotomy y.toNat z.toNat with h2 | h2 | h2
            · simp [goCharListLe, Nat.lt_trans h1 h2]
            · simp [goCharListLe, h2 ▸ h1]
            · simp [goCharListLe, h2, Nat.lt_asymm h2] at hbc
          · rcases Nat.lt_trichotomy y.toNat z.toNat with h2 | h2 | h2
            · simp [goCharListLe, h1 ▸ h2]
            · rw [goCharListLe_cons_eq h1] at hab
              rw [goCharListLe_cons_eq h2] at hbc
              rw [goCharListLe_cons_eq (h1.trans h2)]
              exact ih ys zs hab hbc
            · simp [goCharListLe, h2, Nat.lt_asymm h2] at hbc
          · simp [goCharListLe, h1, Nat.lt_asymm h1] at hab

/-- goStringLe is total, in the form sorted_mergeSort needs. -/
theorem goStringLe_total (a b : String) :
    (goStringLe a b || goStringLe b a) = true := by
  rcases goCharListLe_total a.data b.data with h | h <;>
    simp [goStringLe, h]

/-- goStringLe is transitive, in the form sorted_mergeSort needs. -/
theorem goStringLe_trans (a b c : String)
    (hab : goStringLe a b = true) (hbc : goStringLe b c = true) :
    goStringLe a c = true :=
  goCharListLe_trans a.data b.data c.data hab hbc

/- ========== theorems: registry ========== -/

/-- C7 (counterexample): with TTL 5, an entry whose heartbeat is 5 ticks
old satisfies the claimed liveness predicate now - last_heartbeat ≤ ttl,
yet aliveServers neither returns it nor keeps it: the source test
start + timeout > now is strict, so the boundary entry is evicted. -/
theorem aliveServers_counterexample :
    5 - 0 ≤ 5
    ∧ (GoRegistry.aliveServers ⟨5, [⟨"a", 0⟩]⟩ 5).1 = []
    ∧ (GoRegistry.aliveServers ⟨5, [⟨"a", 0⟩]⟩ 5).2.servers = [] := by
  refine ⟨by decide, ?_, ?_⟩ <;> simp [GoRegistry.aliveServers, aliveCheck]

/-- C7 (amended): aliveServers returns, sorted ascending by the byte
order of sort.Strings, exactly the addresses of entries satisfying the
strict predicate (ttl = 0 or now < last_heartbeat + ttl), and the
surviving table is exactly the entries of the old table passing that
predicate: every failing entry is deleted during the call. -/
theorem aliveServers_spec (r : GoRegistry) (now : Nat) :
    (∀ a, a ∈ (r.aliveServers now).1 ↔
        ∃ s, s ∈ r.servers ∧ s.addr = a
          ∧ (r.timeout = 0 ∨ now < s.start + r.timeout))
    ∧ List.Pairwise (fun a b => goStringLe a b = true) (r.aliveServers now).1
    ∧ (r.aliveServers now).2.servers
        = r.servers.filter (aliveCheck r.timeout now) := by
  refine ⟨fun a => ?_, ?_, rfl⟩
  · show a ∈ ((r.servers.filter (aliveCheck r.timeout now)).map
        ServerItem.addr).mergeSort goStringLe ↔ _
    rw [List.Perm.mem_iff (List.mergeSort_perm _ _)]
    simp only [List.mem_map, List.mem_filter, aliveCheck, Bool.or_eq_true,
      decide_eq_true_eq]
    constructor
    · rintro ⟨s, ⟨hs, hc⟩, rfl⟩
      exact ⟨s, hs, rfl, hc⟩
    · rintro ⟨s, hs, rfl, hc⟩
      exact ⟨s, ⟨hs, hc⟩, rfl⟩
  · exact List.sorted_mergeSort goStringLe_trans goStringLe_total _

/- ========== theorems: discovery ========== -/

/-- Auxiliary: a round robin Get on a state with a non empty list,
written out. -/
theorem get_rr_of_ne (st : MultiServersDiscovery)
    (hn : st.servers.length ≠ 0) (r : Nat) :
    st.get r SelectMode.roundRobinSelect
      = (Except.ok (st.servers.getD (st.index % st.servers.length) ""),
         { st with index := (st.index + 1) % st.servers.length }) := by
  simp [MultiServersDiscovery.get, hn]

/-- Auxiliary: iterated round robin calls keep the server list and track
the cursor modulo the length. -/
theorem getSeq_invariant (m : MultiServersDiscovery)
    (hn : m.servers.length ≠ 0) (k : Nat) :
    (m.getSeq k).servers = m.servers
    ∧ (m.getSeq k).index % m.servers.length
        = (m.index + k) % m.servers.length := by
  induction k with
  | zero => exact ⟨rfl, rfl⟩
  | succ k ih =>
      obtain ⟨hs, hi⟩ := ih
      have hlen : (m.getSeq k).servers.length ≠ 0 := by rw [hs]; exact hn
      have hstep : m.getSeq (k + 1)
          = { m.getSeq k with
              index := ((m.getSeq k).index + 1) % (m.getSeq k).servers.length } := by
        show ((m.getSeq k).get 0 SelectMode.roundRobinSelect).2 = _
        rw [get_rr_of_ne _ hlen]
      constructor
      · rw [hstep]; exact hs
      · rw [hstep]
        show ((m.getSeq k).index + 1) % (m.getSeq k).servers.length
            % m.servers.length = _
        rw [hs, Nat.mod_mod_of_dvd _ dvd_rfl, ← Nat.mod_add_mod, hi,
          Nat.mod_add_mod, Nat.add_assoc]

/-- C8: on a non empty server list of length n, a round robin Get
returns servers[index mod n] and stores (index + 1) mod n into the
cursor; hence starting from any cursor, the k-th successive call
returns servers[(index + k) mod n], the deterministic cycle; and Get on
an empty list returns the no-servers error. -/
theorem roundRobin_get_spec (m : MultiServersDiscovery) (r : Nat)
    (h : m.servers ≠ []) :
    (m.get r SelectMode.roundRobinSelect).1
        = Except.ok (m.servers.getD (m.index % m.servers.length) "")
    ∧ (m.get r SelectMode.roundRobinSelect).2.index
        = (m.index + 1) % m.servers.length
    ∧ (∀ k, ((m.getSeq k).get r SelectMode.roundRobinSelect).1
        = Except.ok (m.servers.getD ((m.index + k) % m.servers.length) ""))
    ∧ (∀ m0 : MultiServersDiscovery, m0.servers = [] →
        (m0.get r SelectMode.roundRobinSelect).1 = Except.error errNoServers) := by
  have hn : m.servers.length ≠ 0 := by
    simpa [List.length_eq_zero] using h
  refine ⟨?_, ?_, fun k => ?_, fun m0 h0 => ?_⟩
  · simp [MultiServersDiscovery.get, hn]
  · simp [MultiServersDiscovery.get, hn]
  · obtain ⟨hs, hi⟩ := getSeq_invariant m hn k
    have hlen : (m.getSeq k).servers.length ≠ 0 := by rw [hs]; exact hn
    rw [get_rr_of_ne _ hlen r]
    rw [hs, hi]
  · simp [MultiServersDiscovery.get, h0]

/-- C8 (witness): a concrete three server list with cursor 5: the call
returns servers[5 mod 3] and advances the cursor to 0, the next three
results cycle z x y, and the empty discovery errors. -/
theorem roundRobin_get_witness :
    ((⟨["x", "y", "z"], 5⟩ : MultiServersDiscovery).get 7
        SelectMode.roundRobinSelect).1 = Except.ok "z"
    ∧ ((⟨["x", "y", "z"], 5⟩ : MultiServersDiscovery).get 7
        SelectMode.roundRobinSelect).2.index = 0 := by
  have h := roundRobin_get_spec ⟨["x", "y", "z"], 5⟩ 7 (by decide)
  refine ⟨by rw [h.1]; rfl, by rw [h.2.1]; rfl⟩

/- ========== theorems: service call counter ========== -/

/-- Auxiliary: each serviceCall adds exactly one to the counter, so a
sequence of invocations adds its length. -/
theorem runCalls_numCalls {α β : Type} :
    ∀ (inputs : List (α × β)) (m : MethodType α β),
      (runCalls m inputs).numCalls = m.numCalls + inputs.length := by
  intro inputs
  induction inputs with
  | nil => intro m; rfl
  | cons i t ih =>
      intro m
      show (runCalls (serviceCall m i.1 i.2).2.2 t).numCalls = _
      rw [ih]
      show m.numCalls + 1 + t.length = m.numCalls + (t.length + 1)
      omega

/-- C6 (amended): after a finite sequence of invocations through
service.call, the numCalls counter has grown by the total number of
invocations in the sequence, successful or not; in particular when every
invocation in the sequence succeeds it has grown by the number of
successful invocations. -/
theorem numCalls_spec {α β : Type} (m : MethodType α β)
    (inputs : List (α × β)) :
    (runCalls m inputs).numCalls = m.numCalls + inputs.length
    ∧ ((∀ i ∈ inputs, (m.func i.1 i.2).2 = none) →
        (runCalls m inputs).numCalls = m.numCalls + successfulCalls m inputs) := by
  refine ⟨runCalls_numCalls inputs m, fun hall => ?_⟩
  have hf : inputs.filter (fun i => (m.func i.1 i.2).2 = none) = inputs :=
    List.filter_eq_self.mpr (fun a ha => by simp [hall a ha])
  rw [runCalls_numCalls, successfulCalls, hf]

/- ========== theorems: server handle timeout ========== -/

/-- C1: with a nonzero HandleTimeout, the worker writes exactly one
frame decided by the race: if the invocation completes first its
(reply, error) response is the frame written; if the timer fires first
the single frame written carries the 处理请求超时 timeout error in the
header and the invalid-request sentinel as body, service.call still runs
to completion in the background, and the leaked goroutine blocks forever
on the unbuffered called channel, so its result is never written to the
connection. The last conjunct exhibits 处理请求超时 inside the header
error text. -/
theorem handleRequest_timeout_spec (h : Header) (ce : Option String)
    (rv : String) (t : Nat) (ht : t ≠ 0) :
    handleRequest h ce rv t RaceWinner.calledFirst
        = ⟨[callResponse h ce rv], true, false⟩
    ∧ handleRequest h ce rv t RaceWinner.timerFirst
        = ⟨[⟨{ h with error := handleTimeoutMsg t }, RespBody.invalidRequest⟩],
           true, true⟩
    ∧ List.IsInfix "处理请求超时".data (handleTimeoutMsg t).data := by
  refine ⟨by simp [handleRequest, ht], by simp [handleRequest, ht], ?_⟩
  refine ⟨"rpc server: ".data, ", 超时时间为".data ++ (toString t).data, ?_⟩
  have h2 : (handleTimeoutMsg t).data
      = "rpc server: 处理请求超时, 超时时间为".data ++ (toString t).data :=
    String.data_append _ _
  have h3 : "rpc server: 处理请求超时, 超时时间为".data
      = "rpc server: ".data ++ "处理请求超时".data ++ ", 超时时间为".data := by
    decide
  rw [h2, h3]
  simp [List.append_assoc]

/-- C1 (witness): timeout 1, a request whose invocation succeeds: the
timer arm writes the single timeout frame, the call completes in the
background and the goroutine stays blocked. -/
theorem handleRequest_timeout_witness :
    handleRequest ⟨"Bar.Timeout", 7, ""⟩ none "0" 1 RaceWinner.timerFirst
      = ⟨[⟨⟨"Bar.Timeout", 7, handleTimeoutMsg 1⟩, RespBody.invalidRequest⟩],
         true, true⟩ := by
  have h := handleRequest_timeout_spec ⟨"Bar.Timeout", 7, ""⟩ none "0" 1
    (by decide)
  exact h.2.1

/- ========== theorems: client close flags ========== -/

/-- Auxiliary: registerCall touches only pending and seq. -/
theorem registerCall_flags (c : Client) (call : Call) :
    (c.registerCall call).2.closing = c.closing
    ∧ (c.registerCall call).2.shutdown = c.shutdown := by
  by_cases h : (c.closing || c.shutdown) = true <;>
    simp [Client.registerCall, h]

/-- Auxiliary: send never changes the close flags. -/
theorem send_flags (c : Client) (call : Call) (w : Option String) :
    (c.send call w).client.closing = c.closing
    ∧ (c.send call w).client.shutdown = c.shutdown := by
  by_cases h : (c.closing || c.shutdown) = true
  · simp [Client.send, Client.registerCall, h]
  · cases w with
    | none => simp [Client.send, Client.registerCall, h]
    | some e =>
        simp only [Client.send, Client.registerCall, h, if_false]
        cases hf : List.find? (fun cl => cl.seq = c.seq)
            ({ call with seq := c.seq } :: c.pending) <;>
          simp [Client.removeCall, hf]

/-- Auxiliary: no client operation ever clears a close flag. -/
theorem step_flags_monotone (c : Client) (op : ClientOp) :
    (c.closing = true → (c.step op).closing = true)
    ∧ (c.shutdown = true → (c.step op).shutdown = true) := by
  cases op with
  | close =>
      constructor <;> intro h <;>
        by_cases hc : c.closing = true <;>
        simp [Client.step, Client.close, hc, h]
  | register call =>
      exact ⟨fun h => (registerCall_flags c call).1.trans h,
        fun h => (registerCall_flags c call).2.trans h⟩
  | remove seq => exact ⟨fun h => h, fun h => h⟩
  | terminate err => exact ⟨fun h => h, fun _ => rfl⟩
  | send call w =>
      exact ⟨fun h => (send_flags c call w).1.trans h,
        fun h => (send_flags c call w).2.trans h⟩
  | go sm a d w =>
      cases d with
      | none =>
          exact ⟨fun h => (send_flags c ⟨0, sm, a, none⟩ w).1.trans h,
            fun h => (send_flags c ⟨0, sm, a, none⟩ w).2.trans h⟩
      | some k =>
          cases k with
          | zero => exact ⟨fun h => h, fun h => h⟩
          | succ k =>
              exact ⟨fun h => (send_flags c ⟨0, sm, a, none⟩ w).1.trans h,
                fun h => (send_flags c ⟨0, sm, a, none⟩ w).2.trans h⟩

/-- Auxiliary: once a close flag is set, it stays set along any
operation sequence. -/
theorem steps_unavailable (c : Client) (ops : List ClientOp)
    (h : c.closing = true ∨ c.shutdown = true) :
    (c.steps ops).closing = true ∨ (c.steps ops).shutdown = true := by
  induction ops generalizing c with
  | nil => exact h
  | cons op t ih =>
      show ((c.step op).steps t).closing = true ∨ _
      refine ih (c.step op) ?_
      rcases h with h | h
      · exact Or.inl ((step_flags_monotone c op).1 h)
      · exact Or.inr ((step_flags_monotone c op).2 h)

/-- C2: a client with closing set (Close was called) or shutdown set
(the receive loop hit a terminal error) stays unavailable across every
subsequent sequence of client operations, and on such a client send,
and hence Go and Call which delegate to it, fails immediately with
ErrShutdown: the state is unchanged (no pending entry registered),
nothing is handed to cc.Write, and the one completion signal carries
ErrShutdown. -/
theorem unavailable_forever (c : Client)
    (h : c.closing = true ∨ c.shutdown = true)
    (ops : List ClientOp) (call : Call) (w : Option String) :
    (c.steps ops).isAvailable = false
    ∧ ((c.steps ops).send call w).client = c.steps ops
    ∧ ((c.steps ops).send call w).wire = []
    ∧ ((c.steps ops).send call w).completions
        = [{ call with error := some ErrShutdown }]
    ∧ (∀ sm args, (c.steps ops).go sm args none w
        = GoOutcome.started (DoneChannel.fresh 1)
            ⟨c.steps ops, [],
             [{ seq := 0, serviceMethod := sm, args := args,
                error := some ErrShutdown }]⟩) := by
  have h2 := steps_unavailable c ops h
  have hb : ((c.steps ops).closing || (c.steps ops).shutdown) = true := by
    rcases h2 with h2 | h2 <;> simp [h2]
  refine ⟨?_, ?_, ?_, ?_, ?_⟩
  · rcases h2 with h2 | h2 <;> simp [Client.isAvailable, h2]
  · simp [Client.send, Client.registerCall, hb]
  · simp [Client.send, Client.registerCall, hb]
  · simp [Client.send, Client.registerCall, hb]
  · intro sm args
    simp [Client.go, goDoneChannel, Client.send, Client.registerCall, hb]

/-- C2 (witness): a freshly closed client stays unavailable after a
terminate step, and a send on it fails with ErrShutdown leaving the
wire untouched. -/
theorem unavailable_forever_witness :
    ((Client.mk 1 [] true false).steps [ClientOp.terminate "eof"]).isAvailable
        = false
    ∧ (((Client.mk 1 [] true false).steps [ClientOp.terminate "eof"]).send
        ⟨0, "Foo.Sum", "args", none⟩ none).wire = []
    ∧ (((Client.mk 1 [] true false).steps [ClientOp.terminate "eof"]).send
        ⟨0, "Foo.Sum", "args", none⟩ none).completions
        = [⟨0, "Foo.Sum", "args", some ErrShutdown⟩] := by
  have h := unavailable_forever ⟨1, [], true, false⟩ (Or.inl rfl)
    [ClientOp.terminate "eof"] ⟨0, "Foo.Sum", "args", none⟩ none
  exact ⟨h.1, h.2.2.1, h.2.2.2.1⟩

/- ========== theorems: terminateCalls ========== -/

/-- Auxiliary: filtering the error stamped pending list by a seq is the
same as stamping the filtered list, since the stamp keeps seq. -/
theorem filter_seq_map_error (l : List Call) (err : String) (p : Nat) :
    (l.map (fun cl => { cl with error := some err })).filter
        (fun s => s.seq = p)
      = (l.filter (fun s => s.seq = p)).map
          (fun cl => { cl with error := some err }) := by
  induction l with
  | nil => rfl
  | cons a t ih =>
      by_cases h : a.seq = p <;> simp [h, ih]

/-- Auxiliary: in a pending table with distinct seqs, exactly one entry
matches the seq of a member. -/
theorem count_seq_eq_one {l : List Call}
    (hnd : (l.map Call.seq).Nodup) {cl : Call} (hm : cl ∈ l) :
    (l.filter (fun s => s.seq = cl.seq)).length = 1 := by
  induction l with
  | nil => cases hm
  | cons a t ih =>
      rw [List.map_cons, List.nodup_cons] at hnd
      rcases List.mem_cons.mp hm with rfl | hm2
      · have ht : t.filter (fun s => s.seq = cl.seq) = [] := by
          rw [List.filter_eq_nil_iff]
          intro b hb hbs
          exact hnd.1 (by
            simp only [decide_eq_true_eq] at hbs
            exact hbs ▸ List.mem_map_of_mem Call.seq hb)
        simp [ht]
      · have ha : ¬(a.seq = cl.seq) := by
          intro he
          exact hnd.1 (he ▸ List.mem_map_of_mem Call.seq hm2)
        simp only [List.filter_cons, decide_eq_true_eq, ha, if_false]
        exact ih hnd.2 hm2

/-- C3: terminateCalls marks the client shutdown, every posted
completion signal carries the terminal error, and every call pending at
the moment of termination is signalled exactly once (the pending table
holds distinct seqs, as registerCall assigns a fresh seq to each
entry). -/
theorem terminateCalls_spec (c : Client) (err : String)
    (hnd : (c.pending.map Call.seq).Nodup) :
    (c.terminateCalls err).1.shutdown = true
    ∧ (∀ s ∈ (c.terminateCalls err).2, s.error = some err)
    ∧ (∀ cl ∈ c.pending,
        ((c.terminateCalls err).2.filter
            (fun s => s.seq = cl.seq)).length = 1) := by
  refine ⟨rfl, ?_, ?_⟩
  · intro s hs
    show s.error = some err
    simp only [Client.terminateCalls, List.mem_map] at hs
    obtain ⟨cl, _, rfl⟩ := hs
    rfl
  · intro cl hm
    show ((c.pending.map (fun x => { x with error := some err })).filter
        (fun s => s.seq = cl.seq)).length = 1
    rw [filter_seq_map_error, List.length_map]
    exact count_seq_eq_one hnd hm

/-- C3 (witness): a client with two pending calls with seqs 1 and 2:
termination with "eof" sets shutdown and signals the call with seq 1
exactly once. -/
theorem terminateCalls_witness :
    ((Client.mk 3 [⟨1, "Foo.Sum", "a", none⟩, ⟨2, "Bar.Timeout", "b", none⟩]
        false false).terminateCalls "eof").1.shutdown = true
    ∧ (((Client.mk 3 [⟨1, "Foo.Sum", "a", none⟩, ⟨2, "Bar.Timeout", "b", none⟩]
        false false).terminateCalls "eof").2.filter
          (fun s => s.seq = 1)).length = 1 := by
  have h := terminateCalls_spec
    ⟨3, [⟨1, "Foo.Sum", "a", none⟩, ⟨2, "Bar.Timeout", "b", none⟩],
     false, false⟩ "eof" (by decide)
  exact ⟨h.1, h.2.2 ⟨1, "Foo.Sum", "a", none⟩ (by decide)⟩

end GoRpc
